import Mathlib

/-!
Shallow embedding of the cosmicterm terminal engine
(`src/terminal.rs`, `TerminalInner`) and the incremental UTF-8
reader loop of the pty session (`src/pty.rs`, `Session::start_reader`).

Lines are `List Char` (Rust `String` manipulated at character offsets),
the scrollback is a `List (List Char)` (Rust `VecDeque<String>`), and the
outbound pty writer channel is modelled as the list `writes` of queued
byte payloads.  A Rust operation that can panic (an out-of-range index)
is embedded as an `Option`-returning function where `none` marks the
panic.
-/

namespace CosmicTerm

/-- Viewport size, `Size { cols, rows }` in `terminal.rs`. -/
structure Size where
  cols : Nat
  rows : Nat
deriving Repr, DecidableEq

/-- State of `TerminalInner`: scrollback lines, cursor, optional viewport
size, dirty flag, plus the queue of payloads sent to the pty writer
channel (the observable effect of `self.pty.get_writer().send(..)`). -/
structure TerminalState where
  lines : List (List Char)
  cursor_x : Nat
  cursor_y : Nat
  size : Option Size
  dirty : Bool
  writes : List (List Nat)
deriving Repr, DecidableEq

/-- `TerminalInner::MAX_LINES`. -/
def MAX_LINES : Nat := 1000

/-- `TerminalInner::new`: empty buffer, cursor at the origin, no viewport
size, dirty flag clear, nothing queued to the writer. -/
def initialState : TerminalState :=
  { lines := [], cursor_x := 0, cursor_y := 0, size := none,
    dirty := false, writes := [] }

/-- `TerminalInner::as_text`: skip `len.saturating_sub(size.map_or(0, rows))`
lines, join the rest with a newline.  The result is the character list of
the returned `String`. -/
def as_text (s : TerminalState) : List Char :=
  List.intercalate ['\n']
    (s.lines.drop
      (s.lines.length - (match s.size with | some sz => sz.rows | none => 0)))

/-- `TerminalInner::write`: empty payloads are skipped; the single byte
`0x08` is rewritten to `0x7F`; anything else is queued unchanged. -/
def write (s : TerminalState) (data : List Nat) : TerminalState :=
  if data = [] then s
  else
    let command := if data = [8] then [127] else data
    { s with writes := s.writes ++ [command] }

/-- `TerminalInner::move_cursor`: set the cursor, clamp the row to
`len - 1` when out of range, then clamp the column to the character count
of `self.lines[cursor_y]`.  That indexing panics when the buffer is
empty, embedded here as `none`. -/
def moveCursor (s : TerminalState) (x y : Nat) : Option TerminalState :=
  let cy := if s.lines.length ≤ y then s.lines.length - 1 else y
  match s.lines.get? cy with
  | none => none
  | some line =>
      let cx := if line.length < x then line.length else x
      some { s with cursor_x := cx, cursor_y := cy }

/-- `Perform::print` for `TerminalInner`: extend the buffer up to the
cursor row, pad the line with spaces up to the cursor column, then append
or replace in place at the cursor column, advance the column, mark dirty. -/
def printChar (s : TerminalState) (c : Char) : TerminalState :=
  let lines :=
    if s.lines.length ≤ s.cursor_y then
      s.lines ++ List.replicate (s.cursor_y + 1 - s.lines.length) ([] : List Char)
    else s.lines
  let line := lines.getD s.cursor_y []
  let char_count := line.length
  let line :=
    if char_count < s.cursor_x then
      line ++ List.replicate (s.cursor_x - char_count) ' '
    else line
  let updated_char_count := line.length
  let line :=
    if s.cursor_x = updated_char_count then line ++ [c]
    else if s.cursor_x < line.length then line.set s.cursor_x c
    else line ++ [c]
  { s with lines := lines.set s.cursor_y line,
           cursor_x := s.cursor_x + 1, dirty := true }

/-- `Perform::execute` for `TerminalInner`: line feed (with FIFO eviction
keyed on the cursor row reaching `MAX_LINES`), carriage return, backspace;
every other control byte is ignored.  Always marks dirty. -/
def execute (s : TerminalState) (byte : Nat) : TerminalState :=
  let s :=
    if byte = 10 then
      let s := { s with cursor_x := 0, cursor_y := s.cursor_y + 1 }
      if MAX_LINES ≤ s.cursor_y then
        { s with lines := s.lines.tail, cursor_y := MAX_LINES - 1 }
      else s
    else if byte = 13 then { s with cursor_x := 0 }
    else if byte = 8 then
      if 0 < s.cursor_x then { s with cursor_x := s.cursor_x - 1 } else s
    else s
  { s with dirty := true }

/-- `params.get(i).and_then(|p| p.first()).copied().unwrap_or(dflt)`. -/
def paramAt (params : List (List Nat)) (i : Nat) (dflt : Nat) : Nat :=
  ((params.get? i).bind List.head?).getD dflt

/-- Decimal digit bytes of `n`, as produced by `format!` for a `usize`. -/
def decimalBytes (n : Nat) : List Nat :=
  (Nat.toDigits 10 n).map Char.toNat

/-- The bytes of the cursor-position report `ESC [ row ; col R`. -/
def cprResponse (row col : Nat) : List Nat :=
  [27, 91] ++ decimalBytes row ++ [59] ++ decimalBytes col ++ [82]

/-- `Perform::csi_dispatch` for `TerminalInner`.  `params` is the vte
parameter list: one `List Nat` of subparameters per parameter group.
`none` marks the index-out-of-range panic reachable through
`move_cursor`. -/
def csiDispatch (s : TerminalState) (params : List (List Nat)) (c : Char) :
    Option TerminalState :=
  let result : Option TerminalState :=
    if c = 'H' ∨ c = 'f' then
      let row := paramAt params 0 1
      let col := paramAt params 1 1
      some { s with cursor_y := row - 1, cursor_x := col - 1 }
    else if c = 'J' then
      let param := paramAt params 0 0
      if param = 0 then
        let lines := s.lines.enum.map
          (fun p => if s.cursor_y ≤ p.1 then ([] : List Char) else p.2)
        let lines := lines.take (s.cursor_y + 1)
        let lines :=
          match lines.get? s.cursor_y with
          | some line => lines.set s.cursor_y (line.take s.cursor_x)
          | none => lines
        some { s with lines := lines }
      else if param = 1 then
        let lines := s.lines.enum.map
          (fun p => if p.1 < s.cursor_y then ([] : List Char) else p.2)
        let lines :=
          match lines.get? s.cursor_y with
          | some line => lines.set s.cursor_y (line.drop s.cursor_x)
          | none => lines
        some { s with lines := lines }
      else if param = 2 ∨ param = 3 then
        some { s with lines := [], cursor_x := 0, cursor_y := 0 }
      else some s
    else if c = 'K' then
      let param := paramAt params 0 0
      if param = 0 then
        some { s with lines :=
          match s.lines.get? s.cursor_y with
          | some line => s.lines.set s.cursor_y (line.take s.cursor_x)
          | none => s.lines }
      else if param = 1 then
        some { s with lines :=
          match s.lines.get? s.cursor_y with
          | some line => s.lines.set s.cursor_y (line.drop s.cursor_x)
          | none => s.lines }
      else if param = 2 then
        some { s with lines :=
          match s.lines.get? s.cursor_y with
          | some _line => s.lines.set s.cursor_y []
          | none => s.lines }
      else some s
    else if c = 'n' then
      if params = [] ∨ params.headD [] = [] then
        some (write s (cprResponse (s.cursor_y + 1) (s.cursor_x + 1)))
      else
        let row := ((params.headD []).get? 0).getD 1
        let col := ((params.headD []).get? 1).getD 1
        some (write s (cprResponse row col))
    else if c = 'A' then
      let count := max 1 (paramAt params 0 1)
      moveCursor s s.cursor_x (s.cursor_y - count)
    else if c = 'B' then
      let count := max 1 (paramAt params 0 1)
      moveCursor s s.cursor_x (s.cursor_y + count)
    else if c = 'C' then
      let count := max 1 (paramAt params 0 1)
      moveCursor s (s.cursor_x + count) s.cursor_y
    else if c = 'D' then
      let count := max 1 (paramAt params 0 1)
      moveCursor s (s.cursor_x - count) s.cursor_y
    else some s
  result.map (fun s => { s with dirty := true })

/-- Feed `n` line-feed bytes in sequence.  A `0x0A` byte in the vte
ground state is dispatched to `execute`, so feeding line feeds is
iterating `execute` on byte 10. -/
def execN : Nat → TerminalState → TerminalState
  | 0, s => s
  | n + 1, s => execN n (execute s 10)

/-- Whether `b` is a UTF-8 continuation byte (`0x80..=0xBF`). -/
def isCont (b : Nat) : Bool :=
  decide (0x80 ≤ b) && decide (b ≤ 0xBF)

/-- Expected length of the UTF-8 sequence led by `b` (0 when `b` cannot
lead a sequence), following the table used by `std::str::from_utf8`. -/
def utf8SeqLen (b : Nat) : Nat :=
  if b < 0x80 then 1
  else if 0xC2 ≤ b ∧ b ≤ 0xDF then 2
  else if 0xE0 ≤ b ∧ b ≤ 0xEF then 3
  else if 0xF0 ≤ b ∧ b ≤ 0xF4 then 4
  else 0

/-- Admissible range of the second byte after lead `b`, following the
special cases of the `std` validator (E0, ED, F0, F4). -/
def utf8Second (b b1 : Nat) : Bool :=
  if b = 0xE0 then decide (0xA0 ≤ b1) && decide (b1 ≤ 0xBF)
  else if b = 0xED then decide (0x80 ≤ b1) && decide (b1 ≤ 0x9F)
  else if b = 0xF0 then decide (0x90 ≤ b1) && decide (b1 ≤ 0xBF)
  else if b = 0xF4 then decide (0x80 ≤ b1) && decide (b1 ≤ 0x8F)
  else isCont b1

/-- Continuation check of a two-byte sequence: the byte after the lead
must be a continuation byte. -/
def utf8First2 : List Nat → Nat
  | b1 :: _ => if isCont b1 then 2 else 0
  | [] => 0

/-- Continuation check of a three-byte sequence led by `b`. -/
def utf8First3 (b : Nat) : List Nat → Nat
  | b1 :: b2 :: _ => if utf8Second b b1 && isCont b2 then 3 else 0
  | _ => 0

/-- Continuation check of a four-byte sequence led by `b`. -/
def utf8First4 (b : Nat) : List Nat → Nat
  | b1 :: b2 :: b3 :: _ =>
      if utf8Second b b1 && isCont b2 && isCont b3 then 4 else 0
  | _ => 0

/-- Length of the complete well-formed UTF-8 sequence at the front of
the buffer, 0 when the front is truncated or malformed, following the
`std::str::from_utf8` validator tables. -/
def utf8FirstSeq : List Nat → Nat
  | [] => 0
  | b :: rest =>
      if b < 0x80 then 1
      else if utf8SeqLen b = 2 then utf8First2 rest
      else if utf8SeqLen b = 3 then utf8First3 b rest
      else if utf8SeqLen b = 4 then utf8First4 b rest
      else 0

/-- Fuelled runner of the validator: sum the lengths of the complete
well-formed sequences at the front, stopping at the first truncated or
malformed one.  Each consumed sequence is nonempty, so a fuel of the
buffer length suffices. -/
def utf8ValidUpToFuel : Nat → List Nat → Nat
  | 0, _ => 0
  | _, [] => 0
  | fuel + 1, l =>
      let n := utf8FirstSeq l
      if n = 0 then 0 else n + utf8ValidUpToFuel fuel (l.drop n)

/-- `valid_up_to` of `std::str::from_utf8`: the length of the longest
run of complete well-formed UTF-8 sequences at the front of the buffer;
a truncated or malformed sequence stops the count at its first byte. -/
def utf8ValidUpTo (l : List Nat) : Nat := utf8ValidUpToFuel l.length l

/-- One iteration of the reader loop of `Session::start_reader` after a
successful read: append the new bytes to the carry-over, decode; if the
whole buffer is valid emit it and clear the carry-over, if a nonempty
valid front exists emit it and retain the rest, otherwise emit nothing
and retain everything.  Returns (emitted chunks, new carry-over). -/
def readerStep (leftover input : List Nat) : List (List Nat) × List Nat :=
  let buf := leftover ++ input
  let v := utf8ValidUpTo buf
  if v = buf.length then ([buf], [])
  else if 0 < v then ([buf.take v], buf.drop v)
  else ([], buf)

/-- The byte lists that are exactly the UTF-8 encoding of one Unicode
scalar value, by the `std` validator's table. -/
def isUtf8CharEncoding (bs : List Nat) : Bool :=
  match bs with
  | [b] => decide (b < 0x80)
  | [b, b1] => decide (utf8SeqLen b = 2) && isCont b1
  | [b, b1, b2] => decide (utf8SeqLen b = 3) && utf8Second b b1 && isCont b2
  | [b, b1, b2, b3] =>
      decide (utf8SeqLen b = 4) && utf8Second b b1 && isCont b2 && isCont b3
  | _ => false

/-! ## Helper lemmas -/

/-- Queueing a cursor-position report is never skipped and never hits the
backspace rewrite: the response starts with the ESC byte. -/
theorem write_cprResponse (s : TerminalState) (r c : Nat) :
    write s (cprResponse r c)
      = { s with writes := s.writes ++ [cprResponse r c] } := by
  have h1 : cprResponse r c ≠ [] := by simp [cprResponse]
  have h2 : cprResponse r c ≠ [8] := by simp [cprResponse]
  unfold write
  rw [if_neg h1, if_neg h2]

/-- What a successful `move_cursor` guarantees: only the cursor fields
change, the row lands strictly inside the buffer, and the column lands at
or before the end of the line the row points at. -/
theorem moveCursor_spec (s : TerminalState) (x y : Nat) (s' : TerminalState)
    (h : moveCursor s x y = some s') :
    s'.lines = s.lines ∧ s'.size = s.size ∧ s'.dirty = s.dirty ∧
    s'.writes = s.writes ∧ s'.cursor_y < s.lines.length ∧
    s'.cursor_x ≤ (s.lines.getD s'.cursor_y []).length := by
  simp only [moveCursor] at h
  split at h
  · exact absurd h (by simp)
  · rename_i line hget
    injection h with h
    subst h
    obtain ⟨hlt, -⟩ := List.get?_eq_some.mp hget
    refine ⟨rfl, rfl, rfl, rfl, hlt, ?_⟩
    rw [List.getD_eq_get?, hget]
    by_cases hx : line.length < x <;> simp [hx]
    omega

/-- Helper: a successful `csi_dispatch` only returns states obtained from
the per-final-character branch by setting the dirty flag. -/
theorem csiDispatch_dirty (s : TerminalState) (ps : List (List Nat))
    (c : Char) (s' : TerminalState) (h : csiDispatch s ps c = some s') :
    s'.dirty = true := by
  unfold csiDispatch at h
  rcases Option.map_eq_some'.mp h with ⟨x, -, hfx⟩
  rw [← hfx]

/-- A line feed on an empty-buffer state: the column resets, the row
advances and is clamped to `999` at the cap, the (empty) eviction pop is
a no-op. -/
theorem execute_lf_empty (x cy : Nat) (b : Bool) :
    execute { lines := [], cursor_x := x, cursor_y := cy, size := none,
              dirty := b, writes := [] } 10
      = { lines := [], cursor_x := 0, cursor_y := min (cy + 1) 999,
          size := none, dirty := true, writes := [] } := by
  simp only [execute, MAX_LINES]
  split_ifs <;> simp_all <;> omega

/-- Iterated line feeds on an empty-buffer state: the buffer stays
empty and the row is the clamped sum. -/
theorem execN_empty (n x cy : Nat) (b : Bool) :
    execN (n + 1) { lines := [], cursor_x := x, cursor_y := cy, size := none,
                    dirty := b, writes := [] }
      = { lines := [], cursor_x := 0, cursor_y := min (cy + (n + 1)) 999,
          size := none, dirty := true, writes := [] } := by
  induction n generalizing x cy b with
  | zero =>
    show execN 0 _ = _
    rw [execute_lf_empty]
    rfl
  | succ n ih =>
    show execN (n + 1) _ = _
    rw [execute_lf_empty, ih]
    congr 1
    omega

/-! ## C1 -/

/-- C1, counterexample: with no viewport size set and a single nonempty
buffer line, `as_text` does not return the buffer lines joined by
newline (it returns the empty string: `map_or(0, ..)` turns the missing
size into zero visible rows, so every line is skipped). -/
theorem c1_no_viewport_counterexample :
    ¬ (as_text { lines := [['a']], cursor_x := 0, cursor_y := 0,
                 size := none, dirty := false, writes := [] }
        = List.intercalate ['\n'] [['a']]) := by decide

/-- C1 (amended): when no viewport size is set `as_text` returns the
empty string; when a size `(cols, rows)` is set it returns the last
`rows` lines (all lines when the buffer holds fewer) joined by newline:
the joined list is the suffix of the buffer of length
`min rows (number of lines)`. -/
theorem c1_as_text_viewport (s : TerminalState) :
    (s.size = none → as_text s = []) ∧
    (∀ cols rows, s.size = some { cols := cols, rows := rows } →
      as_text s
        = List.intercalate ['\n'] (s.lines.drop (s.lines.length - rows)) ∧
      (s.lines.drop (s.lines.length - rows)).length
        = min rows s.lines.length ∧
      s.lines.take (s.lines.length - rows)
          ++ s.lines.drop (s.lines.length - rows) = s.lines) := by
  constructor
  · intro h
    simp [as_text, h, List.intercalate]
  · intro cols rows h
    refine ⟨by simp [as_text, h], ?_, List.take_append_drop _ _⟩
    simp
    omega

/-- C1 witness: a three-line buffer with a two-row viewport snapshots to
the last two lines joined by a newline. -/
theorem c1_as_text_viewport_witness :
    as_text { lines := [['a'], ['b'], ['c']], cursor_x := 0, cursor_y := 0,
              size := some { cols := 80, rows := 2 }, dirty := false,
              writes := [] }
      = ['b', '\n', 'c'] := by
  have h := ((c1_as_text_viewport
    { lines := [['a'], ['b'], ['c']], cursor_x := 0, cursor_y := 0,
      size := some { cols := 80, rows := 2 }, dirty := false,
      writes := [] }).2 80 2 rfl).1
  rw [h]
  decide

/-! ## C2 -/

/-- C2, code bug: on a terminal whose buffer holds zero lines (the
initial state), cursor up (`CSI A`) reaches `move_cursor`, which clamps
the row to `0` and then indexes `self.lines[0]` on the empty buffer: an
out-of-range index, i.e. a panic, embedded as `none`. -/
theorem c2_cursor_up_empty_buffer_panics :
    csiDispatch initialState [] 'A' = none ∧
    moveCursor initialState 0 0 = none := by decide

/-! ## C4 -/

/-- C4, counterexample: feeding 1001 line-feed bytes into a fresh engine
does not leave 1000 lines: a line feed never inserts a line, so the
buffer stays empty. -/
theorem c4_counterexample :
    (execN 1001 initialState).lines.length = 0 ∧
    (execN 1001 initialState).lines.length ≠ MAX_LINES := by
  have h : execN 1001 initialState
      = { lines := [], cursor_x := 0, cursor_y := 999, size := none,
          dirty := true, writes := [] } := by
    have h := execN_empty 1000 0 0 false
    norm_num at h
    exact h
  rw [h]
  simp [MAX_LINES]

/-- C4 (amended): feeding 1001 line-feed bytes into a fresh engine
leaves the buffer empty (line feeds never insert lines, and the FIFO
pops at the cap act on the empty buffer) with the cursor row pinned at
`MAX_LINES - 1 = 999` and the cursor column 0. -/
theorem c4_line_feeds_amended :
    execN 1001 initialState
      = { lines := [], cursor_x := 0, cursor_y := 999, size := none,
          dirty := true, writes := [] } := by
  have h := execN_empty 1000 0 0 false
  norm_num at h
  exact h

/-! ## C5 -/

/-- C5, code bug: from buffer `["abc"]` with the cursor at column 2 of
row 0, `CSI 0 J` leaves the cursor row empty: the erase loop clears the
cursor row itself before the `take(cursor_x)` that was meant to preserve
its leading characters, so `"ab"` is lost instead of preserved. -/
theorem c5_erase_display_clears_whole_cursor_row :
    csiDispatch { lines := [['a', 'b', 'c']], cursor_x := 2, cursor_y := 0,
                  size := none, dirty := false, writes := [] } [[0]] 'J'
      = some { lines := [[]], cursor_x := 2, cursor_y := 0, size := none,
               dirty := true, writes := [] } := by decide

/-! ## C7 -/

/-- C7, counterexample: feeding `CSI 5 ; 6 n` does not echo the
parameters verbatim: the code reads the column from the second
subparameter of the first parameter group, which is absent, so the reply
is `ESC [ 5 ; 1 R` rather than `ESC [ 5 ; 6 R`. -/
theorem c7_params_echo_counterexample :
    csiDispatch initialState [[5], [6]] 'n'
      = some { initialState with
               dirty := true,
               writes := [[27, 91, 53, 59, 49, 82]] } ∧
    [[27, 91, 53, 59, 49, 82]] ≠ [[27, 91, 53, 59, 54, 82]] := by decide

/-- C7 (amended): `CSI n` with no parameters queues
`ESC [ row+1 ; col+1 R` for the engine's cursor at dispatch time; with
parameters it echoes the first parameter group's first subparameter as
the row and its second subparameter as the column (each defaulting to 1,
later groups ignored), without validation against the real cursor. -/
theorem c7_cursor_position_report (s : TerminalState) (g : List Nat)
    (rest : List (List Nat)) (hg : g ≠ []) :
    csiDispatch s [] 'n'
      = some { s with
               dirty := true,
               writes := s.writes
                 ++ [cprResponse (s.cursor_y + 1) (s.cursor_x + 1)] } ∧
    csiDispatch s (g :: rest) 'n'
      = some { s with
               dirty := true,
               writes := s.writes
                 ++ [cprResponse ((g.get? 0).getD 1) ((g.get? 1).getD 1)] } := by
  constructor
  · simp [csiDispatch, write_cprResponse]
  · simp [csiDispatch, write_cprResponse, hg]

/-- C7 witness: on the fresh engine, a parameterless `CSI n` queues
`ESC [ 1 ; 1 R`. -/
theorem c7_cursor_position_report_witness :
    csiDispatch initialState [] 'n'
      = some { initialState with
               dirty := true,
               writes := initialState.writes
                 ++ [cprResponse (initialState.cursor_y + 1)
                      (initialState.cursor_x + 1)] } :=
  (c7_cursor_position_report initialState [5] [] (by decide)).1

/-! ## C8 -/

/-- C8, counterexample: the empty payload is not enqueued at all (the
code returns early on `data.is_empty()`), while the claim requires every
non-backspace payload to be enqueued unchanged. -/
theorem c8_empty_payload_counterexample :
    ¬ ((write initialState []).writes
        = initialState.writes
          ++ [if ([] : List Nat) = [8] then [127] else []]) := by decide

/-- C8 (amended): every nonempty payload is enqueued, with the single
byte `0x08` rewritten to `0x7F` and anything else unchanged; the empty
payload is skipped without touching the queue. -/
theorem c8_write_translates_backspace (s : TerminalState)
    (data : List Nat) (h : data ≠ []) :
    (write s data).writes
      = s.writes ++ [if data = [8] then [127] else data] ∧
    (write s []).writes = s.writes := by
  constructor
  · unfold write
    rw [if_neg h]
  · unfold write
    simp

/-- C8 witness: a backspace keystroke byte is queued as DEL. -/
theorem c8_write_translates_backspace_witness :
    (write initialState [8]).writes
      = initialState.writes
        ++ [if ([8] : List Nat) = [8] then [127] else [8]] :=
  (c8_write_translates_backspace initialState [8] (by decide)).1

/-! ## C10 -/

/-- C10: every completed `execute` call and every completed
`csi_dispatch` call sets the dirty flag, even calls that leave buffer
and cursor untouched: an ignored control byte (7, BEL) and an
unrecognized CSI final character ('z') change nothing but the flag. -/
theorem c10_dirty_always_set :
    (∀ s b, (execute s b).dirty = true) ∧
    (∀ s ps c s', csiDispatch s ps c = some s' → s'.dirty = true) ∧
    (∀ s, execute s 7 = { s with dirty := true }) ∧
    (∀ s ps, csiDispatch s ps 'z' = some { s with dirty := true }) := by
  refine ⟨fun s b => rfl, fun s ps c s' h => csiDispatch_dirty s ps c s' h,
    fun s => rfl, fun s ps => ?_⟩
  simp only [csiDispatch]
  rw [if_neg (by decide : ¬('z' = 'H' ∨ 'z' = 'f')),
      if_neg (by decide : ¬ 'z' = 'J'), if_neg (by decide : ¬ 'z' = 'K'),
      if_neg (by decide : ¬ 'z' = 'n'), if_neg (by decide : ¬ 'z' = 'A'),
      if_neg (by decide : ¬ 'z' = 'B'), if_neg (by decide : ¬ 'z' = 'C'),
      if_neg (by decide : ¬ 'z' = 'D')]
  rfl

/-- C10 witness: the state produced by dispatching the unrecognized CSI
final 'z' on the fresh engine has the dirty flag set. -/
theorem c10_dirty_always_set_witness :
    ({ initialState with dirty := true } : TerminalState).dirty = true :=
  c10_dirty_always_set.2.1 initialState [] 'z'
    { initialState with dirty := true } (by decide)


/-- Queueing a payload never touches the buffer. -/
theorem write_lines (s : TerminalState) (data : List Nat) :
    (write s data).lines = s.lines := by
  unfold write
  split_ifs <;> rfl

/-- The buffer length after `print`: extended to `cursor_y + 1` when the
cursor row was beyond the end, otherwise unchanged. -/
theorem printChar_lines_length (s : TerminalState) (c : Char) :
    (printChar s c).lines.length
      = if s.lines.length ≤ s.cursor_y then s.cursor_y + 1
        else s.lines.length := by
  simp only [printChar, List.length_set]
  split_ifs <;> simp <;> omega

/-- `execute` never increases the number of buffer lines. -/
theorem execute_lines_length (s : TerminalState) (b : Nat) :
    (execute s b).lines.length ≤ s.lines.length := by
  simp only [execute]
  split_ifs <;> simp [List.length_tail] <;> omega

/-- A completed `csi_dispatch` never increases the number of buffer
lines (erase modes only clear, truncate or replace in place). -/
theorem csiDispatch_lines_length (s : TerminalState) (ps : List (List Nat))
    (c : Char) (s' : TerminalState) (h : csiDispatch s ps c = some s') :
    s'.lines.length ≤ s.lines.length := by
  simp only [csiDispatch] at h
  rcases Option.map_eq_some'.mp h with ⟨x, hx, hfx⟩
  have hxl : s'.lines = x.lines := by rw [← hfx]
  rw [hxl]
  split_ifs at hx
  all_goals
    first
      | (have hl := (moveCursor_spec _ _ _ _ hx).1
         rw [hl])
      | (injection hx with hx
         subst hx
         try rw [write_cprResponse]
         try split
         all_goals
           simp [List.length_take, List.length_set, List.length_map,
                 List.enum_length, List.length_tail]
         all_goals omega)

/-- What `print` guarantees about the cursor: the row is unchanged and
inside the (possibly extended) buffer, the column advances by one and
stays at or before the end of the written line. -/
theorem printChar_spec (s : TerminalState) (c : Char) :
    (printChar s c).cursor_y = s.cursor_y ∧
    (printChar s c).cursor_x = s.cursor_x + 1 ∧
    s.cursor_y < (printChar s c).lines.length ∧
    s.cursor_x + 1 ≤ ((printChar s c).lines.getD s.cursor_y []).length := by
  simp only [printChar]
  refine ⟨trivial, trivial, ?_, ?_⟩
  · rw [List.length_set]
    split_ifs <;> first | omega | (simp; omega)
  · set L := (if s.lines.length ≤ s.cursor_y then
        s.lines ++ List.replicate (s.cursor_y + 1 - s.lines.length) ([] : List Char)
      else s.lines) with hL
    have hcy : s.cursor_y < L.length := by
      rw [hL]
      split_ifs <;> first | omega | (simp; omega)
    set line0 := L.getD s.cursor_y [] with hline0
    set padded := (if line0.length < s.cursor_x then
        line0 ++ List.replicate (s.cursor_x - line0.length) ' '
      else line0) with hpad
    have hpadlen : s.cursor_x ≤ padded.length := by
      rw [hpad]
      split_ifs <;> first | omega | (simp; omega)
    set line := (if s.cursor_x = padded.length then padded ++ [c]
      else if s.cursor_x < padded.length then padded.set s.cursor_x c
      else padded ++ [c]) with hline
    have hlinelen : s.cursor_x + 1 ≤ line.length := by
      rw [hline]
      split_ifs <;> first | omega | (simp; omega)
    rw [List.getD_eq_get?, List.get?_set_eq_of_lt _ hcy]
    simpa using hlinelen


/-! ## C3 -/

/-- C3, counterexample: `CSI 1001 ; 1 H` parks the cursor row at 1000
without clamping, and a subsequent `print` resizes the buffer to 1001
lines, exceeding `MAX_LINES` with no eviction. -/
theorem c3_max_lines_counterexample :
    csiDispatch initialState [[1001], [1]] 'H'
      = some { initialState with cursor_y := 1000, dirty := true } ∧
    (printChar { initialState with cursor_y := 1000, dirty := true }
        'a').lines.length = 1001 ∧
    ¬ ((printChar { initialState with cursor_y := 1000, dirty := true }
        'a').lines.length ≤ MAX_LINES) := by
  refine ⟨by decide, ?_, ?_⟩
  · rw [printChar_lines_length]
    decide
  · rw [printChar_lines_length]
    decide

/-- C3 (amended): from any state with at most `MAX_LINES` lines and the
cursor row below `MAX_LINES`, no operation pushes the buffer past
`MAX_LINES` (print can only extend up to `cursor_y + 1`; execute and
csi_dispatch never grow the buffer), and a line feed from row
`MAX_LINES - 1` evicts the oldest line (FIFO `pop_front`) while pinning
the row at `MAX_LINES - 1`.  Without the cursor-row bound the cap can be
exceeded, as the counterexample shows: the eviction is keyed to the
cursor row, not to the line count. -/
theorem c3_max_lines_amended (s : TerminalState) (c : Char) (b : Nat)
    (ps : List (List Nat)) (ch : Char)
    (hlen : s.lines.length ≤ MAX_LINES) (hy : s.cursor_y < MAX_LINES) :
    (printChar s c).lines.length ≤ MAX_LINES ∧
    (execute s b).lines.length ≤ MAX_LINES ∧
    (∀ s', csiDispatch s ps ch = some s' → s'.lines.length ≤ MAX_LINES) ∧
    (s.cursor_y + 1 = MAX_LINES →
      execute s 10
        = { s with
            cursor_x := 0,
            cursor_y := MAX_LINES - 1,
            lines := s.lines.tail,
            dirty := true }) := by
  refine ⟨?_, ?_, ?_, ?_⟩
  · rw [printChar_lines_length]
    split_ifs <;> omega
  · have h := execute_lines_length s b
    omega
  · intro s' h
    have h2 := csiDispatch_lines_length s ps ch s' h
    omega
  · intro hcap
    have hcap2 : s.cursor_y + 1 = 1000 := hcap
    simp only [execute, MAX_LINES, if_true]
    rw [if_pos (by omega : (1000 : Nat) ≤ s.cursor_y + 1)]

/-- C3 witness: printing on the fresh engine respects the cap. -/
theorem c3_max_lines_amended_witness :
    (printChar initialState 'a').lines.length ≤ MAX_LINES :=
  (c3_max_lines_amended initialState 'a' 10 [] 'J' (by decide) (by decide)).1

/-! ## C6 -/

/-- C6, counterexample: `CSI 5 ; 10 H` on the fresh (empty-buffer)
engine is a CSI-dispatch mutation that leaves the cursor row at 4,
which is not below the buffer length 0: absolute positioning does not
clamp. -/
theorem c6_cursor_invariant_counterexample :
    csiDispatch initialState [[5], [10]] 'H'
      = some { initialState with cursor_x := 9, cursor_y := 4, dirty := true } ∧
    ¬ (({ initialState with cursor_x := 9, cursor_y := 4, dirty := true }
          : TerminalState).cursor_y
        < ({ initialState with cursor_x := 9, cursor_y := 4, dirty := true }
          : TerminalState).lines.length) := by
  decide

/-- C6 (amended): the invariant `row < buffer length` and
`column <= line character count` holds after every successful
`move_cursor`-based movement (CSI A/B/C/D) and after every `print`;
absolute positioning (`H`/`f`) and line feed set the row without
clamping it to the buffer length, so the invariant can fail after
them. -/
theorem c6_cursor_invariant_amended :
    (∀ s x y s', moveCursor s x y = some s' →
       s'.cursor_y < s'.lines.length ∧
       s'.cursor_x ≤ (s'.lines.getD s'.cursor_y []).length) ∧
    (∀ s c, (printChar s c).cursor_y < (printChar s c).lines.length ∧
       (printChar s c).cursor_x
         ≤ ((printChar s c).lines.getD ((printChar s c).cursor_y) []).length) := by
  constructor
  · intro s x y s' h
    obtain ⟨hl, -, -, -, hy, hx⟩ := moveCursor_spec s x y s' h
    rw [hl]
    exact ⟨hy, hx⟩
  · intro s c
    obtain ⟨hcy, hcx, hlt, hle⟩ := printChar_spec s c
    rw [hcy, hcx]
    exact ⟨hlt, hle⟩

/-- C6 witness: a concrete in-bounds move on a one-line buffer. -/
theorem c6_cursor_invariant_amended_witness :
    ({ lines := [['a', 'b', 'c']], cursor_x := 1, cursor_y := 0, size := none,
       dirty := false, writes := [] } : TerminalState).cursor_y
      < ({ lines := [['a', 'b', 'c']], cursor_x := 1, cursor_y := 0,
           size := none, dirty := false, writes := [] }
          : TerminalState).lines.length :=
  (c6_cursor_invariant_amended.1
    { lines := [['a', 'b', 'c']], cursor_x := 0, cursor_y := 0, size := none,
      dirty := false, writes := [] } 1 0
    { lines := [['a', 'b', 'c']], cursor_x := 1, cursor_y := 0, size := none,
      dirty := false, writes := [] } (by decide)).1

/-- Running the validator on an empty buffer yields 0 for any fuel. -/
theorem utf8ValidUpToFuel_nil (f : Nat) : utf8ValidUpToFuel f [] = 0 := by
  cases f <;> rfl

/-- Fuel irrelevance: any fuel at least the buffer length computes the
same count. -/
theorem utf8ValidUpToFuel_congr (f1 : Nat) : ∀ (f2 : Nat) (l : List Nat),
    l.length ≤ f1 → l.length ≤ f2 →
    utf8ValidUpToFuel f1 l = utf8ValidUpToFuel f2 l := by
  induction f1 with
  | zero =>
    intro f2 l h1 h2
    have : l = [] := by
      cases l
      · rfl
      · simp at h1
    subst this
    rw [utf8ValidUpToFuel_nil, utf8ValidUpToFuel_nil]
  | succ f1 ih =>
    intro f2 l h1 h2
    cases l with
    | nil => rw [utf8ValidUpToFuel_nil, utf8ValidUpToFuel_nil]
    | cons x xs =>
      cases f2 with
      | zero => simp at h2
      | succ f2 =>
        simp only [utf8ValidUpToFuel]
        by_cases hn : utf8FirstSeq (x :: xs) = 0
        · simp [hn]
        · simp only [hn, if_false]
          congr 1
          apply ih
          · simp at h1 ⊢
            omega
          · simp at h2 ⊢
            omega

/-- A byte whose sequence length is not 1 is not ASCII. -/
theorem not_lt128_of_seqLen (b n : Nat) (hn : utf8SeqLen b = n)
    (h2 : n ≠ 1) : ¬ b < 0x80 := by
  intro hb
  rw [utf8SeqLen, if_pos hb] at hn
  exact h2 hn.symm

/-- Validator value on the empty buffer. -/
theorem validUpTo_nil : utf8ValidUpTo [] = 0 := rfl

/-- An ASCII byte at the front is one complete sequence. -/
theorem validUpTo_ascii (b : Nat) (rest : List Nat) (hb : b < 0x80) :
    utf8ValidUpTo (b :: rest) = 1 + utf8ValidUpTo rest := by
  have hf : utf8FirstSeq (b :: rest) = 1 := by
    simp [utf8FirstSeq, hb]
  unfold utf8ValidUpTo
  simp only [List.length_cons, utf8ValidUpToFuel, hf]
  simp

/-- A well-formed two-byte sequence at the front counts fully. -/
theorem validUpTo_cons2 (b b1 : Nat) (rest : List Nat)
    (h2 : utf8SeqLen b = 2) (hc : isCont b1 = true) :
    utf8ValidUpTo (b :: b1 :: rest) = 2 + utf8ValidUpTo rest := by
  have hnb := not_lt128_of_seqLen b 2 h2 (by omega)
  have hf : utf8FirstSeq (b :: b1 :: rest) = 2 := by
    simp [utf8FirstSeq, utf8First2, hnb, h2, hc]
  unfold utf8ValidUpTo
  simp only [List.length_cons, utf8ValidUpToFuel, hf]
  simp only [List.drop_succ_cons, List.drop_zero]
  norm_num
  exact utf8ValidUpToFuel_congr (rest.length + 1) rest.length rest
    (by omega) (by omega)

/-- A lone two-byte lead is truncated: nothing valid yet. -/
theorem validUpTo_partial2 (b : Nat) (h2 : utf8SeqLen b = 2) :
    utf8ValidUpTo [b] = 0 := by
  have hnb := not_lt128_of_seqLen b 2 h2 (by omega)
  have hf : utf8FirstSeq [b] = 0 := by
    simp [utf8FirstSeq, utf8First2, hnb, h2]
  unfold utf8ValidUpTo
  simp [utf8ValidUpToFuel, hf]

/-- A well-formed three-byte sequence at the front counts fully. -/
theorem validUpTo_cons3 (b b1 b2 : Nat) (rest : List Nat)
    (h3 : utf8SeqLen b = 3) (hs : utf8Second b b1 = true)
    (hc : isCont b2 = true) :
    utf8ValidUpTo (b :: b1 :: b2 :: rest) = 3 + utf8ValidUpTo rest := by
  have hnb := not_lt128_of_seqLen b 3 h3 (by omega)
  have hne2 : ¬ utf8SeqLen b = 2 := by omega
  have hf : utf8FirstSeq (b :: b1 :: b2 :: rest) = 3 := by
    simp [utf8FirstSeq, utf8First3, hnb, hne2, h3, hs, hc]
  unfold utf8ValidUpTo
  simp only [List.length_cons, utf8ValidUpToFuel, hf]
  simp only [List.drop_succ_cons, List.drop_zero]
  norm_num
  exact utf8ValidUpToFuel_congr (rest.length + 2) rest.length rest
    (by omega) (by omega)

/-- A lone three-byte lead is truncated: nothing valid yet. -/
theorem validUpTo_partial3a (b : Nat) (h3 : utf8SeqLen b = 3) :
    utf8ValidUpTo [b] = 0 := by
  have hnb := not_lt128_of_seqLen b 3 h3 (by omega)
  have hne2 : ¬ utf8SeqLen b = 2 := by omega
  have hf : utf8FirstSeq [b] = 0 := by
    simp [utf8FirstSeq, utf8First3, hnb, hne2, h3]
  unfold utf8ValidUpTo
  simp [utf8ValidUpToFuel, hf]

/-- A three-byte lead with one byte after it is truncated. -/
theorem validUpTo_partial3b (b b1 : Nat) (h3 : utf8SeqLen b = 3) :
    utf8ValidUpTo [b, b1] = 0 := by
  have hnb := not_lt128_of_seqLen b 3 h3 (by omega)
  have hne2 : ¬ utf8SeqLen b = 2 := by omega
  have hf : utf8FirstSeq [b, b1] = 0 := by
    simp [utf8FirstSeq, utf8First3, hnb, hne2, h3]
  unfold utf8ValidUpTo
  simp [utf8ValidUpToFuel, hf]

/-- A well-formed four-byte sequence at the front counts fully. -/
theorem validUpTo_cons4 (b b1 b2 b3 : Nat) (rest : List Nat)
    (h4 : utf8SeqLen b = 4) (hs : utf8Second b b1 = true)
    (hc2 : isCont b2 = true) (hc3 : isCont b3 = true) :
    utf8ValidUpTo (b :: b1 :: b2 :: b3 :: rest) = 4 + utf8ValidUpTo rest := by
  have hnb := not_lt128_of_seqLen b 4 h4 (by omega)
  have hne2 : ¬ utf8SeqLen b = 2 := by omega
  have hne3 : ¬ utf8SeqLen b = 3 := by omega
  have hf : utf8FirstSeq (b :: b1 :: b2 :: b3 :: rest) = 4 := by
    simp [utf8FirstSeq, utf8First4, hnb, hne2, hne3, h4, hs, hc2, hc3]
  unfold utf8ValidUpTo
  simp only [List.length_cons, utf8ValidUpToFuel, hf]
  simp only [List.drop_succ_cons, List.drop_zero]
  norm_num
  exact utf8ValidUpToFuel_congr (rest.length + 3) rest.length rest
    (by omega) (by omega)

/-- A lone four-byte lead is truncated: nothing valid yet. -/
theorem validUpTo_partial4a (b : Nat) (h4 : utf8SeqLen b = 4) :
    utf8ValidUpTo [b] = 0 := by
  have hnb := not_lt128_of_seqLen b 4 h4 (by omega)
  have hne2 : ¬ utf8SeqLen b = 2 := by omega
  have hne3 : ¬ utf8SeqLen b = 3 := by omega
  have hf : utf8FirstSeq [b] = 0 := by
    simp [utf8FirstSeq, utf8First4, hnb, hne2, hne3, h4]
  unfold utf8ValidUpTo
  simp [utf8ValidUpToFuel, hf]

/-- A four-byte lead with one byte after it is truncated. -/
theorem validUpTo_partial4b (b b1 : Nat) (h4 : utf8SeqLen b = 4) :
    utf8ValidUpTo [b, b1] = 0 := by
  have hnb := not_lt128_of_seqLen b 4 h4 (by omega)
  have hne2 : ¬ utf8SeqLen b = 2 := by omega
  have hne3 : ¬ utf8SeqLen b = 3 := by omega
  have hf : utf8FirstSeq [b, b1] = 0 := by
    simp [utf8FirstSeq, utf8First4, hnb, hne2, hne3, h4]
  unfold utf8ValidUpTo
  simp [utf8ValidUpToFuel, hf]

/-- A four-byte lead with two bytes after it is truncated. -/
theorem validUpTo_partial4c (b b1 b2 : Nat) (h4 : utf8SeqLen b = 4) :
    utf8ValidUpTo [b, b1, b2] = 0 := by
  have hnb := not_lt128_of_seqLen b 4 h4 (by omega)
  have hne2 : ¬ utf8SeqLen b = 2 := by omega
  have hne3 : ¬ utf8SeqLen b = 3 := by omega
  have hf : utf8FirstSeq [b, b1, b2] = 0 := by
    simp [utf8FirstSeq, utf8First4, hnb, hne2, hne3, h4]
  unfold utf8ValidUpTo
  simp [utf8ValidUpToFuel, hf]

/-! ## C9 -/

/-- C9: for every byte list that is the UTF-8 encoding of one Unicode
scalar value, splitting it across two reads at every byte position
decodes exactly as one read: the reader emits nothing (or an empty
chunk) for the truncated front, carries it over, and on the second read
emits the whole character; the concatenation of all emitted chunks
equals the encoding, the final carry-over is empty, and feeding all
bytes at once emits the same single chunk.  No step is a panic and no
byte is duplicated or lost. -/
theorem c9_incremental_utf8 (bs : List Nat)
    (h : isUtf8CharEncoding bs = true) (i : Nat) (hi : i ≤ bs.length) :
    readerStep [] bs = ([bs], []) ∧
    (readerStep (readerStep [] (bs.take i)).2 (bs.drop i)).2 = [] ∧
    ((readerStep [] (bs.take i)).1
      ++ (readerStep (readerStep [] (bs.take i)).2 (bs.drop i)).1).join
      = bs := by
  rcases bs with _ | ⟨b, _ | ⟨b1, _ | ⟨b2, _ | ⟨b3, rest⟩⟩⟩⟩
  · simp [isUtf8CharEncoding] at h
  · simp only [isUtf8CharEncoding, decide_eq_true_eq] at h
    have v1 : utf8ValidUpTo [b] = 1 := by
      rw [validUpTo_ascii b [] h]
      rfl
    simp at hi
    interval_cases i <;>
      simp [readerStep, v1, validUpTo_nil]
  · simp only [isUtf8CharEncoding, Bool.and_eq_true, decide_eq_true_eq] at h
    obtain ⟨h2, hc⟩ := h
    have v2 : utf8ValidUpTo [b, b1] = 2 := by
      rw [validUpTo_cons2 b b1 [] h2 hc]
      rfl
    have p1 := validUpTo_partial2 b h2
    simp at hi
    interval_cases i <;>
      simp [readerStep, v2, p1, validUpTo_nil]
  · simp only [isUtf8CharEncoding, Bool.and_eq_true, decide_eq_true_eq] at h
    obtain ⟨⟨h3, hs⟩, hc⟩ := h
    have v3 : utf8ValidUpTo [b, b1, b2] = 3 := by
      rw [validUpTo_cons3 b b1 b2 [] h3 hs hc]
      rfl
    have p1 := validUpTo_partial3a b h3
    have p2 := validUpTo_partial3b b b1 h3
    simp at hi
    interval_cases i <;>
      simp [readerStep, v3, p1, p2, validUpTo_nil]
  · rcases rest with _ | ⟨r, rest⟩
    · simp only [isUtf8CharEncoding, Bool.and_eq_true, decide_eq_true_eq] at h
      obtain ⟨⟨⟨h4, hs⟩, hc2⟩, hc3⟩ := h
      have v4 : utf8ValidUpTo [b, b1, b2, b3] = 4 := by
        rw [validUpTo_cons4 b b1 b2 b3 [] h4 hs hc2 hc3]
        rfl
      have p1 := validUpTo_partial4a b h4
      have p2 := validUpTo_partial4b b b1 h4
      have p3 := validUpTo_partial4c b b1 b2 h4
      simp at hi
      interval_cases i <;>
        simp [readerStep, v4, p1, p2, p3, validUpTo_nil]
    · simp [isUtf8CharEncoding] at h

/-- C9 witness: the three-byte encoding of the euro sign split after
its first byte. -/
theorem c9_incremental_utf8_witness :
    readerStep [] [226, 130, 172] = ([[226, 130, 172]], []) ∧
    (readerStep (readerStep [] ([226, 130, 172].take 1)).2
        ([226, 130, 172].drop 1)).2 = [] ∧
    ((readerStep [] ([226, 130, 172].take 1)).1
      ++ (readerStep (readerStep [] ([226, 130, 172].take 1)).2
            ([226, 130, 172].drop 1)).1).join
      = [226, 130, 172] :=
  c9_incremental_utf8 [226, 130, 172] (by decide) 1 (by decide)

end CosmicTerm
